import Mathlib

/-!
Shallow embedding of the portfolio blog system: the serverless Post Store
handler (src/api/posts.js), the Express admin middleware (the variant server
file), and the browser Post Client (src/blog.js). Machine state is the
relational `posts` table, modelled as a list of rows; timestamps are
natural numbers; the storage clock NOW() is passed as an explicit `now`
argument. Fallible JS values (undefined / null) are Option; JS falsiness of
strings (undefined, null, empty) is made explicit.
-/

set_option maxRecDepth 100000

namespace Blog

/-- A persisted row of the `posts` table (schema in ensureTable / initDB). -/
structure Row where
  id : String
  title : String
  content : String
  excerpt : String
  tags : List String
  created_at : Nat
  updated_at : Nat
deriving DecidableEq, Repr

/-- A record produced by the list query
`SELECT id, title, excerpt, tags, created_at, updated_at FROM posts`:
it has exactly those columns and no content column. -/
structure SummaryRow where
  id : String
  title : String
  excerpt : String
  tags : List String
  created_at : Nat
  updated_at : Nat
deriving DecidableEq, Repr

/-- HTTP methods the handler distinguishes. -/
inductive Method where
  | get
  | post
  | delete
  | options
deriving DecidableEq, Repr

/-- The parsed JSON request body: `const { id, title, content, excerpt, tags } = req.body`.
A field absent from the JSON object destructures to undefined, modelled as none. -/
structure Body where
  id : Option String
  title : Option String
  content : Option String
  excerpt : Option String
  tags : Option (List String)
deriving DecidableEq, Repr

/-- An incoming HTTP request as the handler consumes it: method, raw url,
the Vercel rewrite query parameter id, the x-admin-key header, and the body. -/
structure Request where
  method : Method
  url : String
  queryId : Option String
  adminKey : Option String
  body : Body
deriving DecidableEq, Repr

/-- Server environment: process.env.DATABASE_URL and process.env.ADMIN_SECRET,
each possibly unset. -/
structure Env where
  databaseUrl : Option String
  adminSecret : Option String
deriving DecidableEq, Repr

/-- JS falsiness of a possibly-undefined string: undefined, null and the
empty string are falsy. -/
def falsyOpt : Option String → Bool
  | none => true
  | some s => s.isEmpty

/-- isAdmin(req): `key && key === process.env.ADMIN_SECRET`. A missing or
empty header is falsy; otherwise strict equality against the configured
secret (false when ADMIN_SECRET is unset, since a string never equals
undefined). -/
def isAdmin (env : Env) (req : Request) : Bool :=
  match req.adminKey with
  | none => false
  | some k => !k.isEmpty && env.adminSecret == some k

/-- The literal the id-extraction pattern looks for in the url. -/
def apiPat : List Char := '/' :: 'a' :: 'p' :: 'i' :: '/' :: 'p' :: 'o' :: 's' :: 't' :: 's' :: '/' :: []

/-- Characters that end the captured id segment (the class excludes slash
and question mark). -/
def sepChar (c : Char) : Bool := c == '/' || c == '?'

/-- Scan the url for the first occurrence of the pattern followed by a
nonempty separator-free segment, mirroring the match on req.url in
extractId; on a failed capture the scan resumes one character later. -/
def findApiId : List Char → Option String
  | [] => none
  | c :: rest =>
    if apiPat.isPrefixOf (c :: rest) then
      let seg := ((c :: rest).drop apiPat.length).takeWhile (fun d => !sepChar d)
      if seg.isEmpty then findApiId rest else some (String.mk seg)
    else findApiId rest

/-- extractId(req): the rewrite query parameter when truthy, else the url
scan; null when neither yields an id. -/
def extractId (req : Request) : Option String :=
  match req.queryId with
  | some q => if q.isEmpty then findApiId req.url.toList else some q
  | none => findApiId req.url.toList

/-- Projection performed by the list query column set. -/
def toSummary (r : Row) : SummaryRow :=
  ⟨r.id, r.title, r.excerpt, r.tags, r.created_at, r.updated_at⟩

/-- Insert a row into a list kept in descending created_at order
(ORDER BY created_at DESC). -/
def insertByCreatedDesc (r : Row) : List Row → List Row
  | [] => [r]
  | x :: xs =>
    if r.created_at ≤ x.created_at then x :: insertByCreatedDesc r xs
    else r :: x :: xs

/-- Sort the table by created_at descending (ORDER BY created_at DESC). -/
def sortByCreatedDesc : List Row → List Row
  | [] => []
  | r :: rest => insertByCreatedDesc r (sortByCreatedDesc rest)

/-- `SELECT * FROM posts WHERE id = $1`. -/
def selectById (t : List Row) (pid : String) : List Row :=
  t.filter (fun r => r.id == pid)

/-- `INSERT ... ON CONFLICT (id) DO UPDATE SET title, content, excerpt, tags,
updated_at = NOW() ... RETURNING *`: on conflict with the primary key the
existing row keeps its created_at and its mutable columns are overwritten;
otherwise the fresh row is inserted. Returns the new table and the
RETURNING row. -/
def upsert (t : List Row) (newRow : Row) : List Row × Row :=
  match t.find? (fun r => r.id == newRow.id) with
  | some old =>
    let updated : Row := { newRow with created_at := old.created_at }
    (t.map (fun r => if r.id == newRow.id then updated else r), updated)
  | none => (t ++ [newRow], newRow)

/-- The row the POST branch builds from the body: excerpt defaults to the
empty string, tags to the empty array, both timestamps set to NOW(). -/
def bodyRow (b : Body) (now : Nat) : Row :=
  { id := b.id.getD ""
    title := b.title.getD ""
    content := b.content.getD ""
    excerpt := b.excerpt.getD ""
    tags := b.tags.getD []
    created_at := now
    updated_at := now }

/-- JSON response bodies the handler can produce. -/
inductive Resp where
  | empty
  | health (hasDb hasSecret : Bool)
  | summaries (rows : List SummaryRow)
  | fullRow (r : Row)
  | errorMsg (msg : String)
  | deletedMsg (id : String)
deriving DecidableEq, Repr

/-- Handler outcome: HTTP status, JSON body, and the table after the request. -/
structure HOut where
  status : Nat
  resp : Resp
  table : List Row
deriving DecidableEq, Repr

/-- The serverless handler (module.exports of src/api/posts.js), with the
storage clock passed as `now` and the table as explicit state. getPool
throwing on a missing DATABASE_URL inside the try block surfaces as the
caught 500 with the thrown message. -/
def handler (env : Env) (req : Request) (now : Nat) (t : List Row) : HOut :=
  if req.method = Method.options then ⟨200, Resp.empty, t⟩
  else if req.method = Method.get ∧ req.url = "/api/posts/health" then
    ⟨200, Resp.health env.databaseUrl.isSome env.adminSecret.isSome, t⟩
  else
    match env.databaseUrl with
    | none => ⟨500, Resp.errorMsg "DATABASE_URL environment variable is not set", t⟩
    | some _ =>
      let postId := extractId req
      if req.method = Method.get ∧ postId = none then
        ⟨200, Resp.summaries ((sortByCreatedDesc t).map toSummary), t⟩
      else if req.method = Method.get ∧ postId ≠ none then
        match selectById t (postId.getD "") with
        | [] => ⟨404, Resp.errorMsg "Post not found", t⟩
        | r :: _ => ⟨200, Resp.fullRow r, t⟩
      else if req.method = Method.post then
        if isAdmin env req = false then
          ⟨403, Resp.errorMsg "Forbidden — invalid admin key", t⟩
        else if (falsyOpt req.body.id || falsyOpt req.body.title || falsyOpt req.body.content) = true then
          ⟨400, Resp.errorMsg "id, title, and content are required", t⟩
        else
          let res := upsert t (bodyRow req.body now)
          ⟨200, Resp.fullRow res.2, res.1⟩
      else if req.method = Method.delete ∧ postId ≠ none then
        if isAdmin env req = false then
          ⟨403, Resp.errorMsg "Forbidden — invalid admin key", t⟩
        else
          let pid := postId.getD ""
          match selectById t pid with
          | [] => ⟨404, Resp.errorMsg "Post not found", t⟩
          | _ :: _ => ⟨200, Resp.deletedMsg pid, t.filter (fun r => r.id != pid)⟩
      else ⟨405, Resp.errorMsg "Method not allowed", t⟩

/-- requireAdmin middleware of the Express variant: a missing or empty
ADMIN_SECRET is answered per request with 500, a header differing from the
configured secret with 403; none means the request passes on to the route. -/
def requireAdmin (adminSecret : Option String) (key : Option String) : Option Nat :=
  match adminSecret with
  | none => some 500
  | some s =>
    if s.isEmpty then some 500
    else if key == some s then none
    else some 403

/-! Client side (src/blog.js). The excerpt generator receives the plain-text
rendering of the markup (div.textContent after assigning innerHTML); the
text is modelled as a list of characters, the unit JS indexes by. -/

/-- Whitespace as trimmed by the JS trim method, restricted to the ASCII
white characters relevant here. -/
def isJsSpace (c : Char) : Bool :=
  c == ' ' || c == '\t' || c == '\n' || c == '\r' || c == '\x0b' || c == '\x0c'

/-- The JS trim: remove leading and trailing whitespace. -/
def trimChars (cs : List Char) : List Char :=
  ((cs.dropWhile isJsSpace).reverse.dropWhile isJsSpace).reverse

/-- generateExcerpt on the plain-text rendering:
`text.substring(0, 180).trim() + (text.length > 180 ? : )` with the
three-dot marker in the long case. -/
def generateExcerpt (text : List Char) : List Char :=
  trimChars (text.take 180) ++ (if 180 < text.length then ['.', '.', '.'] else [])

/-- Browser session state: the admin_key entry of sessionStorage. -/
structure ClientState where
  sessionKey : Option String
deriving DecidableEq, Repr

/-- getAdminKey: `sessionStorage.getItem(..) || null`; an empty stored
value collapses to null. -/
def getAdminKey (s : ClientState) : Option String :=
  match s.sessionKey with
  | some k => if k.isEmpty then none else some k
  | none => none

/-- promptAdminKey given the user reply (none when the dialog is cancelled):
a truthy reply is stored in the session, and the raw reply is returned. -/
def promptAdminKey (s : ClientState) (reply : Option String) :
    Option String × ClientState :=
  match reply with
  | some k => if k.isEmpty then (some k, s) else (some k, ⟨some k⟩)
  | none => (none, s)

/-- ensureAdminKey: the held key when present, otherwise ask the user. -/
def ensureAdminKey (s : ClientState) (reply : Option String) :
    Option String × ClientState :=
  match getAdminKey s with
  | some k => (some k, s)
  | none => promptAdminKey s reply

/-- Outcome of a fetch to the Store: a network failure rejecting the
promise, or a response with a status code. -/
inductive Fetch where
  | transportError
  | status (code : Nat)
deriving DecidableEq, Repr

/-- res.ok: the status code lies in the 2xx range. -/
def isOk (c : Nat) : Bool := 200 ≤ c && c < 300

/-- What a client mutation reports: the boolean result, the session state
afterwards, and whether a request was issued to the Store at all. -/
structure ClientOut where
  success : Bool
  state : ClientState
  contacted : Bool
deriving DecidableEq, Repr

/-- saveBlog(post): abort without fetch when no truthy key is available;
on 403 discard the held key and fail; on any other non-ok outcome
(thrown and caught) fail; on ok report true. -/
def saveBlog (s : ClientState) (reply : Option String) (resp : Fetch) : ClientOut :=
  let kr := ensureAdminKey s reply
  match kr.1 with
  | none => ⟨false, kr.2, false⟩
  | some k =>
    if k.isEmpty then ⟨false, kr.2, false⟩
    else
      match resp with
      | Fetch.transportError => ⟨false, kr.2, true⟩
      | Fetch.status c =>
        if c == 403 then ⟨false, ⟨none⟩, true⟩
        else if !isOk c then ⟨false, kr.2, true⟩
        else ⟨true, kr.2, true⟩

/-- deleteBlog(id): same credential handling as saveBlog, scoped to one id. -/
def deleteBlog (s : ClientState) (reply : Option String) (resp : Fetch) : ClientOut :=
  let kr := ensureAdminKey s reply
  match kr.1 with
  | none => ⟨false, kr.2, false⟩
  | some k =>
    if k.isEmpty then ⟨false, kr.2, false⟩
    else
      match resp with
      | Fetch.transportError => ⟨false, kr.2, true⟩
      | Fetch.status c =>
        if c == 403 then ⟨false, ⟨none⟩, true⟩
        else if !isOk c then ⟨false, kr.2, true⟩
        else ⟨true, kr.2, true⟩

/-- True when ensureAdminKey hands back a truthy key, so the fetch is
reached. -/
def keyAvailable (s : ClientState) (reply : Option String) : Bool :=
  match (ensureAdminKey s reply).1 with
  | some k => !k.isEmpty
  | none => false

/-- A wire record as the Store serialises it (snake_case field names; tags
may be null). -/
structure WirePost where
  id : String
  title : String
  content : String
  excerpt : String
  tags : Option (List String)
  created_at : Nat
  updated_at : Nat
deriving DecidableEq, Repr

/-- The normalised camelCase view model built in getBlogs and getBlog;
null tags become the empty array. -/
structure BlogView where
  id : String
  title : String
  content : String
  excerpt : String
  tags : List String
  createdAt : Nat
  updatedAt : Nat
deriving DecidableEq, Repr

/-- The per-record normalisation of getBlogs and getBlog. -/
def normalizePost (p : WirePost) : BlogView :=
  ⟨p.id, p.title, p.content, p.excerpt, p.tags.getD [], p.created_at, p.updated_at⟩

/-- Outcome of the list fetch. -/
inductive FetchList where
  | transportError
  | response (code : Nat) (body : List WirePost)
deriving DecidableEq, Repr

/-- Outcome of the single-post fetch. -/
inductive FetchOne where
  | transportError
  | response (code : Nat) (body : WirePost)
deriving DecidableEq, Repr

/-- getBlogs(): a non-ok response throws and the catch returns the empty
list, as does a transport failure; otherwise the payload is normalised. -/
def getBlogs : FetchList → List BlogView
  | FetchList.transportError => []
  | FetchList.response c ps => if isOk c then ps.map normalizePost else []

/-- getBlog(id): null on a non-ok response or transport failure, otherwise
the normalised record. -/
def getBlog : FetchOne → Option BlogView
  | FetchOne.transportError => none
  | FetchOne.response c p => if isOk c then some (normalizePost p) else none

/-- Replace the content column of a row, keeping everything else. -/
def eraseContent (r : Row) : Row := { r with content := "" }

/-! Helper lemmas. -/

theorem dropWhile_of_head? {p : Char → Bool} {l : List Char} {c : Char}
    (hc : l.head? = some c) (hp : p c = false) : l.dropWhile p = l := by
  cases l with
  | nil => simp at hc
  | cons a rest =>
    simp only [List.head?_cons, Option.some.injEq] at hc
    subst hc
    simp [List.dropWhile_cons, hp]

theorem length_dropWhile_le_chars (p : Char → Bool) (l : List Char) :
    (l.dropWhile p).length ≤ l.length := by
  induction l with
  | nil => simp
  | cons a rest ih =>
    by_cases hp : p a = true
    · simp only [List.dropWhile_cons, hp, if_pos]
      exact Nat.le_trans ih (Nat.le_succ _)
    · simp [List.dropWhile_cons, hp]

theorem trimChars_length_le (l : List Char) : (trimChars l).length ≤ l.length := by
  unfold trimChars
  calc ((l.dropWhile isJsSpace).reverse.dropWhile isJsSpace).reverse.length
      = ((l.dropWhile isJsSpace).reverse.dropWhile isJsSpace).length :=
        List.length_reverse _
    _ ≤ (l.dropWhile isJsSpace).reverse.length := length_dropWhile_le_chars _ _
    _ = (l.dropWhile isJsSpace).length := List.length_reverse _
    _ ≤ l.length := length_dropWhile_le_chars _ _

theorem trimChars_of_ends {l : List Char} {c1 c2 : Char}
    (h1 : l.head? = some c1) (hp1 : isJsSpace c1 = false)
    (h2 : l.getLast? = some c2) (hp2 : isJsSpace c2 = false) :
    trimChars l = l := by
  unfold trimChars
  rw [dropWhile_of_head? h1 hp1]
  rw [dropWhile_of_head? (by rw [List.head?_reverse]; exact h2) hp2]
  exact List.reverse_reverse l

/-- C3, counterexample: a plain text of 181 characters whose 180th character
is a space. The stored excerpt is the 179-character trimmed cut followed by
the three-dot marker (182 characters in total), not exactly 180 characters
followed by the marker. -/
theorem c3_excerpt_counterexample :
    180 < (List.replicate 179 'a' ++ [' ', 'b']).length ∧
    generateExcerpt (List.replicate 179 'a' ++ [' ', 'b']) =
      List.replicate 179 'a' ++ ['.', '.', '.'] ∧
    (generateExcerpt (List.replicate 179 'a' ++ [' ', 'b'])).length = 182 := by
  refine ⟨by decide, by decide, by decide⟩

/-- C3 (amended): for plain text over 180 characters the excerpt is the
trimmed 180-character cut followed by the three-dot marker, hence at most
180 characters before the marker, and exactly 180 precisely when the cut
has no surrounding whitespace; for text of at most 180 characters the
excerpt is the trimmed text with no marker. -/
theorem c3_excerpt_amended (text : List Char) :
    (text.length ≤ 180 → generateExcerpt text = trimChars text) ∧
    (180 < text.length →
      generateExcerpt text = trimChars (text.take 180) ++ ['.', '.', '.'] ∧
      (trimChars (text.take 180)).length ≤ 180 ∧
      (∀ c1 c2, (text.take 180).head? = some c1 → isJsSpace c1 = false →
        (text.take 180).getLast? = some c2 → isJsSpace c2 = false →
        (trimChars (text.take 180)).length = 180)) := by
  constructor
  · intro hle
    unfold generateExcerpt
    rw [List.take_of_length_le hle, if_neg (by omega), List.append_nil]
  · intro hlt
    refine ⟨?_, ?_, ?_⟩
    · unfold generateExcerpt
      rw [if_pos hlt]
    · exact Nat.le_trans (trimChars_length_le _)
        (by rw [List.length_take]; exact inf_le_left)
    · intro c1 c2 h1 hp1 h2 hp2
      rw [trimChars_of_ends h1 hp1 h2 hp2, List.length_take]
      exact inf_eq_left.mpr (Nat.le_of_lt hlt)

/-- Witness for the amended C3 at a short and at a long concrete text. -/
theorem c3_excerpt_amended_witness :
    ("ab".toList.length ≤ 180 ∧ generateExcerpt "ab".toList = trimChars "ab".toList) ∧
    (180 < (List.replicate 181 'a').length ∧
      generateExcerpt (List.replicate 181 'a') =
        trimChars ((List.replicate 181 'a').take 180) ++ ['.', '.', '.']) :=
  ⟨⟨by decide, (c3_excerpt_amended "ab".toList).1 (by decide)⟩,
   ⟨by decide, ((c3_excerpt_amended (List.replicate 181 'a')).2 (by decide)).1⟩⟩

/-- C8: both client reads swallow every transport failure and every non-ok
response, returning the empty list (list) or none (get); on an ok response
the list is the normalised payload. The reads are total functions into
plain values, so no error can reach their callers. -/
theorem c8_reads_fail_soft (rl : FetchList) (ro : FetchOne) :
    (rl = FetchList.transportError → getBlogs rl = []) ∧
    (∀ c ps, rl = FetchList.response c ps → isOk c = false → getBlogs rl = []) ∧
    (∀ c ps, rl = FetchList.response c ps → isOk c = true →
      getBlogs rl = ps.map normalizePost) ∧
    (ro = FetchOne.transportError → getBlog ro = none) ∧
    (∀ c p, ro = FetchOne.response c p → isOk c = false → getBlog ro = none) := by
  refine ⟨?_, ?_, ?_, ?_, ?_⟩
  · rintro rfl; rfl
  · rintro c ps rfl h; simp [getBlogs, h]
  · rintro c ps rfl h; simp [getBlogs, h]
  · rintro rfl; rfl
  · rintro c p rfl h; simp [getBlog, h]

/-- Witness for C8 at a 500 list response and a 404 get response. -/
theorem c8_reads_fail_soft_witness :
    getBlogs (FetchList.response 500 [⟨"p", "t", "c", "e", none, 1, 1⟩]) = [] ∧
    getBlog (FetchOne.response 404 ⟨"p", "t", "c", "e", none, 1, 1⟩) = none :=
  ⟨(c8_reads_fail_soft (FetchList.response 500 [⟨"p", "t", "c", "e", none, 1, 1⟩])
      (FetchOne.response 404 ⟨"p", "t", "c", "e", none, 1, 1⟩)).2.1
      500 [⟨"p", "t", "c", "e", none, 1, 1⟩] rfl (by decide),
   (c8_reads_fail_soft (FetchList.response 500 [⟨"p", "t", "c", "e", none, 1, 1⟩])
      (FetchOne.response 404 ⟨"p", "t", "c", "e", none, 1, 1⟩)).2.2.2.2
      404 ⟨"p", "t", "c", "e", none, 1, 1⟩ rfl (by decide)⟩

theorem isEmpty_false_of_ne {s : String} (h : s ≠ "") : s.isEmpty = false := by
  cases hb : s.isEmpty
  · rfl
  · exact absurd ((String.isEmpty_iff s).mp hb) h

/-- C7: for both client mutations, a missing credential together with a
declined dialog aborts with failure before any request is issued; a
Forbidden response clears the held credential and fails; any other failing
outcome reports false; an ok response reports true. -/
theorem c7_client_secret_handling (s : ClientState) (reply : Option String) (resp : Fetch) :
    (keyAvailable s reply = false →
      (saveBlog s reply resp).success = false ∧
      (saveBlog s reply resp).contacted = false ∧
      (deleteBlog s reply resp).success = false ∧
      (deleteBlog s reply resp).contacted = false) ∧
    (keyAvailable s reply = true → resp = Fetch.status 403 →
      (saveBlog s reply resp).success = false ∧
      (saveBlog s reply resp).state.sessionKey = none ∧
      (deleteBlog s reply resp).success = false ∧
      (deleteBlog s reply resp).state.sessionKey = none) ∧
    (∀ c, keyAvailable s reply = true → resp = Fetch.status c → c ≠ 403 →
      isOk c = false →
      (saveBlog s reply resp).success = false ∧
      (deleteBlog s reply resp).success = false) ∧
    (keyAvailable s reply = true → resp = Fetch.transportError →
      (saveBlog s reply resp).success = false ∧
      (deleteBlog s reply resp).success = false) ∧
    (∀ c, keyAvailable s reply = true → resp = Fetch.status c → isOk c = true →
      (saveBlog s reply resp).success = true ∧
      (deleteBlog s reply resp).success = true) := by
  refine ⟨?_, ?_, ?_, ?_, ?_⟩
  · intro hna
    rcases hk : (ensureAdminKey s reply).1 with _ | k
    · simp [saveBlog, deleteBlog, hk]
    · have hke : k.isEmpty = true := by
        have := hna
        simp only [keyAvailable, hk] at this
        simpa using this
      simp [saveBlog, deleteBlog, hk, hke]
  · rintro hav rfl
    rcases hk : (ensureAdminKey s reply).1 with _ | k
    · simp [keyAvailable, hk] at hav
    · have hke : k.isEmpty = false := by
        simp only [keyAvailable, hk] at hav
        simpa using hav
      simp [saveBlog, deleteBlog, hk, hke]
  · rintro c hav rfl hne hok
    rcases hk : (ensureAdminKey s reply).1 with _ | k
    · simp [keyAvailable, hk] at hav
    · have hke : k.isEmpty = false := by
        simp only [keyAvailable, hk] at hav
        simpa using hav
      have hcb : (c == 403) = false := by simp [hne]
      simp [saveBlog, deleteBlog, hk, hke, hcb, hok]
  · rintro hav rfl
    rcases hk : (ensureAdminKey s reply).1 with _ | k
    · simp [keyAvailable, hk] at hav
    · have hke : k.isEmpty = false := by
        simp only [keyAvailable, hk] at hav
        simpa using hav
      simp [saveBlog, deleteBlog, hk, hke]
  · rintro c hav rfl hok
    rcases hk : (ensureAdminKey s reply).1 with _ | k
    · simp [keyAvailable, hk] at hav
    · have hke : k.isEmpty = false := by
        simp only [keyAvailable, hk] at hav
        simpa using hav
      have hne : c ≠ 403 := by
        intro h
        subst h
        simp [isOk] at hok
      have hcb : (c == 403) = false := by simp [hne]
      simp [saveBlog, deleteBlog, hk, hke, hcb, hok]

/-- Witness for C7: a declined dialog aborts without contact; a 403 clears
the stored key; a 500 fails; a 200 succeeds. -/
theorem c7_client_secret_handling_witness :
    ((saveBlog ⟨none⟩ none (Fetch.status 200)).success = false ∧
     (saveBlog ⟨none⟩ none (Fetch.status 200)).contacted = false ∧
     (deleteBlog ⟨none⟩ none (Fetch.status 200)).success = false ∧
     (deleteBlog ⟨none⟩ none (Fetch.status 200)).contacted = false) ∧
    ((saveBlog ⟨some "k"⟩ none (Fetch.status 403)).success = false ∧
     (saveBlog ⟨some "k"⟩ none (Fetch.status 403)).state.sessionKey = none ∧
     (deleteBlog ⟨some "k"⟩ none (Fetch.status 403)).success = false ∧
     (deleteBlog ⟨some "k"⟩ none (Fetch.status 403)).state.sessionKey = none) ∧
    ((saveBlog ⟨some "k"⟩ none (Fetch.status 500)).success = false ∧
     (deleteBlog ⟨some "k"⟩ none (Fetch.status 500)).success = false) ∧
    ((saveBlog ⟨some "k"⟩ none (Fetch.status 200)).success = true ∧
     (deleteBlog ⟨some "k"⟩ none (Fetch.status 200)).success = true) :=
  ⟨(c7_client_secret_handling ⟨none⟩ none (Fetch.status 200)).1 (by decide),
   (c7_client_secret_handling ⟨some "k"⟩ none (Fetch.status 403)).2.1 (by decide) rfl,
   (c7_client_secret_handling ⟨some "k"⟩ none (Fetch.status 500)).2.2.1 500 (by decide)
     rfl (by decide) (by decide),
   (c7_client_secret_handling ⟨some "k"⟩ none (Fetch.status 200)).2.2.2.2 200 (by decide)
     rfl (by decide)⟩

theorem isAdmin_true {env : Env} {req : Request} {s : String}
    (hsec : env.adminSecret = some s) (hkey : req.adminKey = some s) (hs : s ≠ "") :
    isAdmin env req = true := by
  simp [isAdmin, hkey, hsec, isEmpty_false_of_ne hs]

theorem isAdmin_false_of_bad {env : Env} {req : Request} {s : String}
    (hsec : env.adminSecret = some s)
    (hbad : req.adminKey = none ∨ ∀ k, req.adminKey = some k → k ≠ s) :
    isAdmin env req = false := by
  rcases hk : req.adminKey with _ | k
  · simp [isAdmin, hk]
  · rcases hbad with h | h
    · rw [h] at hk; cases hk
    · have hne : s ≠ k := fun hh => (h k hk) hh.symm
      simp [isAdmin, hk, hsec, hne]

/-- C2: an upsert request with a valid payload whose admin header is absent
or differs from the configured secret is answered 403 Forbidden and the
table is untouched. -/
theorem c2_upsert_forbidden_frame (env : Env) (req : Request) (now : Nat)
    (t : List Row) (u s : String)
    (hdb : env.databaseUrl = some u) (hsec : env.adminSecret = some s)
    (hm : req.method = Method.post)
    (_hid : falsyOpt req.body.id = false)
    (_hti : falsyOpt req.body.title = false)
    (_hc : falsyOpt req.body.content = false)
    (hbad : req.adminKey = none ∨ ∀ k, req.adminKey = some k → k ≠ s) :
    (handler env req now t).status = 403 ∧
    (handler env req now t).resp = Resp.errorMsg "Forbidden — invalid admin key" ∧
    (handler env req now t).table = t := by
  have hadmin : isAdmin env req = false := isAdmin_false_of_bad hsec hbad
  simp [handler, hm, hdb, hadmin]

/-- Witness for C2 at a concrete wrong-key request over a one-row table. -/
theorem c2_upsert_forbidden_frame_witness :
    (handler ⟨some "db", some "sec"⟩
      ⟨Method.post, "/api/posts", none, some "wrong",
        ⟨some "p1", some "T", some "C", none, none⟩⟩ 9
      [⟨"p1", "O", "OC", "OE", [], 5, 5⟩]).status = 403 ∧
    (handler ⟨some "db", some "sec"⟩
      ⟨Method.post, "/api/posts", none, some "wrong",
        ⟨some "p1", some "T", some "C", none, none⟩⟩ 9
      [⟨"p1", "O", "OC", "OE", [], 5, 5⟩]).table = [⟨"p1", "O", "OC", "OE", [], 5, 5⟩] :=
  ⟨(c2_upsert_forbidden_frame ⟨some "db", some "sec"⟩
      ⟨Method.post, "/api/posts", none, some "wrong",
        ⟨some "p1", some "T", some "C", none, none⟩⟩ 9
      [⟨"p1", "O", "OC", "OE", [], 5, 5⟩] "db" "sec" rfl rfl rfl
      (by decide) (by decide) (by decide)
      (Or.inr (by rintro k hk; cases hk; decide))).1,
   (c2_upsert_forbidden_frame ⟨some "db", some "sec"⟩
      ⟨Method.post, "/api/posts", none, some "wrong",
        ⟨some "p1", some "T", some "C", none, none⟩⟩ 9
      [⟨"p1", "O", "OC", "OE", [], 5, 5⟩] "db" "sec" rfl rfl rfl
      (by decide) (by decide) (by decide)
      (Or.inr (by rintro k hk; cases hk; decide))).2.2⟩

/-- C9: with the correct secret, a POST whose id, title or content is
missing or empty is answered 400 with the table untouched; with all three
present and nonempty the request is not answered 400. -/
theorem c9_upsert_validation (env : Env) (req : Request) (now : Nat)
    (t : List Row) (u s : String)
    (hdb : env.databaseUrl = some u) (hsec : env.adminSecret = some s)
    (hs : s ≠ "") (hkey : req.adminKey = some s)
    (hm : req.method = Method.post) :
    ((falsyOpt req.body.id || falsyOpt req.body.title || falsyOpt req.body.content) = true →
      (handler env req now t).status = 400 ∧
      (handler env req now t).resp = Resp.errorMsg "id, title, and content are required" ∧
      (handler env req now t).table = t) ∧
    ((falsyOpt req.body.id || falsyOpt req.body.title || falsyOpt req.body.content) = false →
      (handler env req now t).status ≠ 400) := by
  have hadmin : isAdmin env req = true := isAdmin_true hsec hkey hs
  constructor
  · intro hval
    simp [handler, hm, hdb, hadmin, hval]
  · intro hval
    rcases hfind : t.find? (fun r => r.id == (bodyRow req.body now).id) with _ | old
    · simp [handler, hm, hdb, hadmin, hval, upsert, hfind]
    · simp [handler, hm, hdb, hadmin, hval, upsert, hfind]

/-- Witness for C9: an empty title is rejected 400; a full payload is not. -/
theorem c9_upsert_validation_witness :
    ((handler ⟨some "db", some "sec"⟩
        ⟨Method.post, "/api/posts", none, some "sec",
          ⟨some "p1", some "", some "C", none, none⟩⟩ 9 []).status = 400) ∧
    ((handler ⟨some "db", some "sec"⟩
        ⟨Method.post, "/api/posts", none, some "sec",
          ⟨some "p1", some "T", some "C", none, none⟩⟩ 9 []).status ≠ 400) :=
  ⟨((c9_upsert_validation ⟨some "db", some "sec"⟩
      ⟨Method.post, "/api/posts", none, some "sec",
        ⟨some "p1", some "", some "C", none, none⟩⟩ 9 [] "db" "sec"
      rfl rfl (by decide) rfl rfl).1 (by decide)).1,
   (c9_upsert_validation ⟨some "db", some "sec"⟩
      ⟨Method.post, "/api/posts", none, some "sec",
        ⟨some "p1", some "T", some "C", none, none⟩⟩ 9 [] "db" "sec"
      rfl rfl (by decide) rfl rfl).2 (by decide)⟩

theorem find?_eq_of_unique {t : List Row} {r0 : Row} {pid : String}
    (hmem : r0 ∈ t) (hid : r0.id = pid)
    (huniq : t.Pairwise (fun a b => a.id ≠ b.id)) :
    t.find? (fun r => r.id == pid) = some r0 := by
  induction t with
  | nil => cases hmem
  | cons a rest ih =>
    rcases List.pairwise_cons.mp huniq with ⟨hhead, htail⟩
    rcases List.mem_cons.mp hmem with rfl | hmem2
    · rw [List.find?_cons_of_pos _ (by simp [hid])]
    · have hane : a.id ≠ pid := fun h => (hhead r0 hmem2) (by rw [h, hid])
      rw [List.find?_cons_of_neg _ (by simp [hane])]
      exact ih hmem2 htail

theorem filter_eq_nil_of_no_match {t : List Row} {pid : String}
    (h : ∀ r ∈ t, r.id ≠ pid) : t.filter (fun r => r.id == pid) = [] := by
  induction t with
  | nil => rfl
  | cons a rest ih =>
    have ha : (a.id == pid) = false := by simp [h a (List.mem_cons_self a rest)]
    rw [List.filter_cons_of_neg (by simp [ha])]
    exact ih fun r hr => h r (List.mem_cons_of_mem a hr)

theorem map_update_id {t : List Row} {pid : String} (updated : Row)
    (h : ∀ r ∈ t, r.id ≠ pid) :
    t.map (fun r => if r.id == pid then updated else r) = t := by
  induction t with
  | nil => rfl
  | cons a rest ih =>
    have ha : (a.id == pid) = false := by simp [h a (List.mem_cons_self a rest)]
    simp only [List.map_cons, ha, Bool.false_eq_true, if_false]
    rw [ih fun r hr => h r (List.mem_cons_of_mem a hr)]

theorem filter_update_single {t : List Row} {r0 updated : Row} {pid : String}
    (hmem : r0 ∈ t) (hr0 : r0.id = pid) (hup : updated.id = pid)
    (huniq : t.Pairwise (fun a b => a.id ≠ b.id)) :
    (t.map (fun r => if r.id == pid then updated else r)).filter
      (fun r => r.id == pid) = [updated] := by
  induction t with
  | nil => cases hmem
  | cons a rest ih =>
    rcases List.pairwise_cons.mp huniq with ⟨hhead, htail⟩
    rcases List.mem_cons.mp hmem with rfl | hmem2
    · have hrest : ∀ r ∈ rest, r.id ≠ pid := by
        intro r hr h
        exact (hhead r hr) (by rw [hr0, h])
      simp only [List.map_cons, hr0, beq_self_eq_true, if_true]
      rw [map_update_id updated hrest]
      rw [List.filter_cons_of_pos (by simp [hup])]
      rw [filter_eq_nil_of_no_match hrest]
    · have hane : a.id ≠ pid := fun h => (hhead r0 hmem2) (by rw [h, hr0])
      have ha : (a.id == pid) = false := by simp [hane]
      simp only [List.map_cons, ha, Bool.false_eq_true, if_false]
      rw [List.filter_cons_of_neg (by simp [ha])]
      exact ih hmem2 htail

/-- C1: an authorized upsert with a valid payload over a table that already
holds a row with the same id overwrites title, content, excerpt and tags,
refreshes updated_at to the current time, preserves the original
created_at, keeps exactly one row with that id, leaves every other row
unchanged, and returns the full resulting row. -/
theorem c1_upsert_overwrite (env : Env) (req : Request) (now : Nat) (t : List Row)
    (u s i ti c : String) (r0 updated : Row)
    (hdb : env.databaseUrl = some u)
    (hsec : env.adminSecret = some s) (hs : s ≠ "")
    (hkey : req.adminKey = some s)
    (hm : req.method = Method.post)
    (hid : req.body.id = some i) (hi : i ≠ "")
    (hti : req.body.title = some ti) (hti2 : ti ≠ "")
    (hcon : req.body.content = some c) (hc2 : c ≠ "")
    (hmem : r0 ∈ t) (hr0id : r0.id = i)
    (huniq : t.Pairwise (fun a b => a.id ≠ b.id))
    (hupd : updated = { id := i
                        title := ti
                        content := c
                        excerpt := req.body.excerpt.getD ""
                        tags := req.body.tags.getD []
                        created_at := r0.created_at
                        updated_at := now }) :
    (handler env req now t).status = 200 ∧
    (handler env req now t).resp = Resp.fullRow updated ∧
    updated.created_at = r0.created_at ∧
    updated.updated_at = now ∧
    (handler env req now t).table =
      t.map (fun r => if r.id == i then updated else r) ∧
    (handler env req now t).table.filter (fun r => r.id == i) = [updated] ∧
    (∀ r2 ∈ t, r2.id ≠ i → r2 ∈ (handler env req now t).table) := by
  subst hupd
  have hadmin : isAdmin env req = true := isAdmin_true hsec hkey hs
  have hval : (falsyOpt req.body.id || falsyOpt req.body.title ||
      falsyOpt req.body.content) = false := by
    simp [falsyOpt, hid, hti, hcon, isEmpty_false_of_ne hi,
      isEmpty_false_of_ne hti2, isEmpty_false_of_ne hc2]
  have hbid : (bodyRow req.body now).id = i := by simp [bodyRow, hid]
  have hfind : t.find? (fun r => r.id == i) = some r0 :=
    find?_eq_of_unique hmem hr0id huniq
  have hb1 : (bodyRow req.body now).title = ti := by simp [bodyRow, hti]
  have hb2 : (bodyRow req.body now).content = c := by simp [bodyRow, hcon]
  have hb3 : (bodyRow req.body now).excerpt = req.body.excerpt.getD "" := by
    simp [bodyRow]
  have hb4 : (bodyRow req.body now).tags = req.body.tags.getD [] := by
    simp [bodyRow]
  have hb5 : (bodyRow req.body now).updated_at = now := by simp [bodyRow]
  have hstat : (handler env req now t).status = 200 := by
    simp [handler, hm, hdb, hadmin, hval, upsert, hfind, hbid]
  have hresp : (handler env req now t).resp = Resp.fullRow
      { id := i
        title := ti
        content := c
        excerpt := req.body.excerpt.getD ""
        tags := req.body.tags.getD []
        created_at := r0.created_at
        updated_at := now } := by
    simp [handler, hm, hdb, hadmin, hval, upsert, hfind, hbid, hb1, hb2, hb3, hb4, hb5]
  have htab : (handler env req now t).table =
      t.map (fun r => if r.id == i then
        { id := i
          title := ti
          content := c
          excerpt := req.body.excerpt.getD ""
          tags := req.body.tags.getD []
          created_at := r0.created_at
          updated_at := now } else r) := by
    simp [handler, hm, hdb, hadmin, hval, upsert, hfind, hbid, hb1, hb2, hb3, hb4, hb5]
  refine ⟨hstat, hresp, rfl, rfl, htab, ?_, ?_⟩
  · rw [htab]
    exact filter_update_single hmem hr0id rfl huniq
  · intro r2 hr2 hne
    rw [htab]
    exact List.mem_map.mpr ⟨r2, hr2, by simp [hne]⟩

/-- Witness for C1: re-upserting id p1 over a one-row table keeps
created_at 5, refreshes updated_at to 9, and overwrites the fields. -/
theorem c1_upsert_overwrite_witness :
    (handler ⟨some "db", some "sec"⟩
      ⟨Method.post, "/api/posts", none, some "sec",
        ⟨some "p1", some "T", some "C", some "E", some ["x"]⟩⟩ 9
      [⟨"p1", "O", "OC", "OE", [], 5, 5⟩]).status = 200 ∧
    (handler ⟨some "db", some "sec"⟩
      ⟨Method.post, "/api/posts", none, some "sec",
        ⟨some "p1", some "T", some "C", some "E", some ["x"]⟩⟩ 9
      [⟨"p1", "O", "OC", "OE", [], 5, 5⟩]).resp =
      Resp.fullRow ⟨"p1", "T", "C", "E", ["x"], 5, 9⟩ :=
  ⟨(c1_upsert_overwrite ⟨some "db", some "sec"⟩
      ⟨Method.post, "/api/posts", none, some "sec",
        ⟨some "p1", some "T", some "C", some "E", some ["x"]⟩⟩ 9
      [⟨"p1", "O", "OC", "OE", [], 5, 5⟩] "db" "sec" "p1" "T" "C"
      ⟨"p1", "O", "OC", "OE", [], 5, 5⟩ ⟨"p1", "T", "C", "E", ["x"], 5, 9⟩
      rfl rfl (by decide) rfl rfl rfl (by decide) rfl (by decide) rfl (by decide)
      (by simp) rfl (by simp) (by decide)).1,
   (c1_upsert_overwrite ⟨some "db", some "sec"⟩
      ⟨Method.post, "/api/posts", none, some "sec",
        ⟨some "p1", some "T", some "C", some "E", some ["x"]⟩⟩ 9
      [⟨"p1", "O", "OC", "OE", [], 5, 5⟩] "db" "sec" "p1" "T" "C"
      ⟨"p1", "O", "OC", "OE", [], 5, 5⟩ ⟨"p1", "T", "C", "E", ["x"], 5, 9⟩
      rfl rfl (by decide) rfl rfl rfl (by decide) rfl (by decide) rfl (by decide)
      (by simp) rfl (by simp) (by decide)).2.1⟩

theorem selectById_eq_nil_iff {t : List Row} {pid : String} :
    selectById t pid = [] ↔ ∀ r ∈ t, r.id ≠ pid := by
  unfold selectById
  rw [List.filter_eq_nil_iff]
  constructor
  · intro h r hr he
    exact h r hr (by simp [he])
  · intro h r hr hb
    exact h r hr (by simpa using hb)

theorem selectById_eq_of_unique {t : List Row} {r0 : Row} {pid : String}
    (hmem : r0 ∈ t) (hid : r0.id = pid)
    (huniq : t.Pairwise (fun a b => a.id ≠ b.id)) :
    selectById t pid = [r0] := by
  induction t with
  | nil => cases hmem
  | cons a rest ih =>
    rcases List.pairwise_cons.mp huniq with ⟨hhead, htail⟩
    rcases List.mem_cons.mp hmem with rfl | hmem2
    · have hrest : ∀ r ∈ rest, r.id ≠ pid := by
        intro r hr h
        exact (hhead r hr) (by rw [hid, h])
      unfold selectById
      rw [List.filter_cons_of_pos (by simp [hid])]
      have : rest.filter (fun r => r.id == pid) = [] := filter_eq_nil_of_no_match hrest
      rw [this]
    · have hane : a.id ≠ pid := fun h => (hhead r0 hmem2) (by rw [h, hid])
      unfold selectById
      rw [List.filter_cons_of_neg (by simp [hane])]
      exact ih hmem2 htail

theorem filter_keep_all_of_no_match {t : List Row} {pid : String}
    (h : ∀ r ∈ t, r.id ≠ pid) : t.filter (fun r => r.id != pid) = t := by
  induction t with
  | nil => rfl
  | cons a rest ih =>
    rw [List.filter_cons_of_pos (by simp [bne_iff_ne, h a (List.mem_cons_self a rest)])]
    rw [ih fun r hr => h r (List.mem_cons_of_mem a hr)]

theorem length_filter_ne_of_unique {t : List Row} {r0 : Row} {pid : String}
    (hmem : r0 ∈ t) (hid : r0.id = pid)
    (huniq : t.Pairwise (fun a b => a.id ≠ b.id)) :
    (t.filter (fun r => r.id != pid)).length + 1 = t.length := by
  induction t with
  | nil => cases hmem
  | cons a rest ih =>
    rcases List.pairwise_cons.mp huniq with ⟨hhead, htail⟩
    rcases List.mem_cons.mp hmem with rfl | hmem2
    · have hrest : ∀ r ∈ rest, r.id ≠ pid := by
        intro r hr h
        exact (hhead r hr) (by rw [hid, h])
      rw [List.filter_cons_of_neg (by simp [bne_iff_ne, hid])]
      rw [filter_keep_all_of_no_match hrest]
      simp
    · have hane : a.id ≠ pid := fun h => (hhead r0 hmem2) (by rw [h, hid])
      rw [List.filter_cons_of_pos (by simp [bne_iff_ne, hane])]
      simp only [List.length_cons]
      rw [Nat.succ_add]
      rw [ih hmem2 htail]

/-- C6: an authorized delete of an id held by no row is answered 404 with
the table unchanged; an authorized delete of an existing id removes exactly
that row, keeps every other row, and returns the deleted id. -/
theorem c6_delete (env : Env) (req : Request) (now : Nat) (t : List Row)
    (u s pid : String)
    (hdb : env.databaseUrl = some u) (hsec : env.adminSecret = some s)
    (hs : s ≠ "") (hkey : req.adminKey = some s)
    (hm : req.method = Method.delete)
    (hpid : extractId req = some pid) :
    ((∀ r ∈ t, r.id ≠ pid) →
      (handler env req now t).status = 404 ∧
      (handler env req now t).resp = Resp.errorMsg "Post not found" ∧
      (handler env req now t).table = t) ∧
    (∀ r0 ∈ t, r0.id = pid → t.Pairwise (fun a b => a.id ≠ b.id) →
      (handler env req now t).status = 200 ∧
      (handler env req now t).resp = Resp.deletedMsg pid ∧
      (handler env req now t).table = t.filter (fun r => r.id != pid) ∧
      (handler env req now t).table.length + 1 = t.length ∧
      (∀ r2 ∈ t, r2.id ≠ pid → r2 ∈ (handler env req now t).table)) := by
  have hadmin : isAdmin env req = true := isAdmin_true hsec hkey hs
  constructor
  · intro hnone
    have hsel : selectById t pid = [] := selectById_eq_nil_iff.mpr hnone
    refine ⟨?_, ?_, ?_⟩ <;> simp [handler, hm, hdb, hadmin, hpid, hsel]
  · intro r0 hmem hr0 huniq
    have hsel : selectById t pid = [r0] := selectById_eq_of_unique hmem hr0 huniq
    have htab : (handler env req now t).table = t.filter (fun r => r.id != pid) := by
      simp [handler, hm, hdb, hadmin, hpid, hsel]
    refine ⟨?_, ?_, htab, ?_, ?_⟩
    · simp [handler, hm, hdb, hadmin, hpid, hsel]
    · simp [handler, hm, hdb, hadmin, hpid, hsel]
    · rw [htab]
      exact length_filter_ne_of_unique hmem hr0 huniq
    · intro r2 hr2 hne
      rw [htab]
      exact List.mem_filter.mpr ⟨hr2, by simp [bne_iff_ne, hne]⟩

/-- Witness for C6: deleting a missing id is 404 on an untouched table;
deleting an existing id removes exactly that row and confirms the id. -/
theorem c6_delete_witness :
    ((handler ⟨some "db", some "sec"⟩
        ⟨Method.delete, "/api/posts/nope", none, some "sec",
          ⟨none, none, none, none, none⟩⟩ 9
        [⟨"p1", "O", "OC", "OE", [], 5, 5⟩]).status = 404 ∧
     (handler ⟨some "db", some "sec"⟩
        ⟨Method.delete, "/api/posts/nope", none, some "sec",
          ⟨none, none, none, none, none⟩⟩ 9
        [⟨"p1", "O", "OC", "OE", [], 5, 5⟩]).table = [⟨"p1", "O", "OC", "OE", [], 5, 5⟩]) ∧
    ((handler ⟨some "db", some "sec"⟩
        ⟨Method.delete, "/api/posts/p1", none, some "sec",
          ⟨none, none, none, none, none⟩⟩ 9
        [⟨"p1", "O", "OC", "OE", [], 5, 5⟩, ⟨"p2", "B", "BC", "BE", [], 7, 7⟩]).status = 200 ∧
     (handler ⟨some "db", some "sec"⟩
        ⟨Method.delete, "/api/posts/p1", none, some "sec",
          ⟨none, none, none, none, none⟩⟩ 9
        [⟨"p1", "O", "OC", "OE", [], 5, 5⟩, ⟨"p2", "B", "BC", "BE", [], 7, 7⟩]).resp =
        Resp.deletedMsg "p1") :=
  ⟨⟨((c6_delete ⟨some "db", some "sec"⟩
      ⟨Method.delete, "/api/posts/nope", none, some "sec",
        ⟨none, none, none, none, none⟩⟩ 9
      [⟨"p1", "O", "OC", "OE", [], 5, 5⟩] "db" "sec" "nope"
      rfl rfl (by decide) rfl rfl (by decide)).1 (by decide)).1,
    ((c6_delete ⟨some "db", some "sec"⟩
      ⟨Method.delete, "/api/posts/nope", none, some "sec",
        ⟨none, none, none, none, none⟩⟩ 9
      [⟨"p1", "O", "OC", "OE", [], 5, 5⟩] "db" "sec" "nope"
      rfl rfl (by decide) rfl rfl (by decide)).1 (by decide)).2.2⟩,
   ⟨((c6_delete ⟨some "db", some "sec"⟩
      ⟨Method.delete, "/api/posts/p1", none, some "sec",
        ⟨none, none, none, none, none⟩⟩ 9
      [⟨"p1", "O", "OC", "OE", [], 5, 5⟩, ⟨"p2", "B", "BC", "BE", [], 7, 7⟩] "db" "sec" "p1"
      rfl rfl (by decide) rfl rfl (by decide)).2
      ⟨"p1", "O", "OC", "OE", [], 5, 5⟩ (by simp) rfl (by simp)).1,
    ((c6_delete ⟨some "db", some "sec"⟩
      ⟨Method.delete, "/api/posts/p1", none, some "sec",
        ⟨none, none, none, none, none⟩⟩ 9
      [⟨"p1", "O", "OC", "OE", [], 5, 5⟩, ⟨"p2", "B", "BC", "BE", [], 7, 7⟩] "db" "sec" "p1"
      rfl rfl (by decide) rfl rfl (by decide)).2
      ⟨"p1", "O", "OC", "OE", [], 5, 5⟩ (by simp) rfl (by simp)).2.1⟩⟩

/-- C10: with the server configured, an unauthorized upsert or delete is
answered 403 with the fixed Forbidden body and an unchanged table,
whatever the table holds; two arbitrary table states yield the identical
status and body, so an unauthorized caller learns nothing about the
table. -/
theorem c10_unauthorized_uniform (env : Env) (req : Request) (now : Nat)
    (u s : String)
    (hdb : env.databaseUrl = some u) (hsec : env.adminSecret = some s)
    (hbad : req.adminKey = none ∨ ∀ k, req.adminKey = some k → k ≠ s)
    (hm : req.method = Method.post ∨
      (req.method = Method.delete ∧ extractId req ≠ none)) :
    ∀ t1 t2 : List Row,
      (handler env req now t1).status = 403 ∧
      (handler env req now t1).resp = Resp.errorMsg "Forbidden — invalid admin key" ∧
      (handler env req now t1).table = t1 ∧
      (handler env req now t1).status = (handler env req now t2).status ∧
      (handler env req now t1).resp = (handler env req now t2).resp := by
  have hadmin : isAdmin env req = false := isAdmin_false_of_bad hsec hbad
  have key : ∀ t : List Row, handler env req now t =
      ⟨403, Resp.errorMsg "Forbidden — invalid admin key", t⟩ := by
    intro t
    rcases hm with hp | ⟨hd, hpid⟩
    · simp [handler, hp, hdb, hadmin]
    · rcases hex : extractId req with _ | pid
      · exact absurd hex hpid
      · simp [handler, hd, hdb, hadmin, hex]
  intro t1 t2
  rw [key t1, key t2]
  exact ⟨rfl, rfl, rfl, rfl, rfl⟩

/-- Witness for C10: a keyless delete gets the same 403 over an empty table
and over a one-row table holding the requested id. -/
theorem c10_unauthorized_uniform_witness :
    (handler ⟨some "db", some "sec"⟩
      ⟨Method.delete, "/api/posts/p1", none, none,
        ⟨none, none, none, none, none⟩⟩ 9 []).status = 403 ∧
    (handler ⟨some "db", some "sec"⟩
      ⟨Method.delete, "/api/posts/p1", none, none,
        ⟨none, none, none, none, none⟩⟩ 9 []).resp =
      (handler ⟨some "db", some "sec"⟩
        ⟨Method.delete, "/api/posts/p1", none, none,
          ⟨none, none, none, none, none⟩⟩ 9
        [⟨"p1", "O", "OC", "OE", [], 5, 5⟩]).resp :=
  ⟨(c10_unauthorized_uniform ⟨some "db", some "sec"⟩
      ⟨Method.delete, "/api/posts/p1", none, none,
        ⟨none, none, none, none, none⟩⟩ 9 "db" "sec"
      rfl rfl (Or.inl rfl) (Or.inr ⟨rfl, by decide⟩) []
      [⟨"p1", "O", "OC", "OE", [], 5, 5⟩]).1,
   (c10_unauthorized_uniform ⟨some "db", some "sec"⟩
      ⟨Method.delete, "/api/posts/p1", none, none,
        ⟨none, none, none, none, none⟩⟩ 9 "db" "sec"
      rfl rfl (Or.inl rfl) (Or.inr ⟨rfl, by decide⟩) []
      [⟨"p1", "O", "OC", "OE", [], 5, 5⟩]).2.2.2.2⟩

/-- C4, counterexample: with DATABASE_URL missing the serverless handler
answers an ordinary list request with a per-request 500 configuration
error; with ADMIN_SECRET missing the Express middleware answers each
admin-gated request with a per-request 500. The claim that neither missing
configuration value produces a per-request error response is false. -/
theorem c4_config_counterexample :
    (handler ⟨none, some "sec"⟩
      ⟨Method.get, "/api/posts", none, none,
        ⟨none, none, none, none, none⟩⟩ 0 []).status = 500 ∧
    (handler ⟨none, some "sec"⟩
      ⟨Method.get, "/api/posts", none, none,
        ⟨none, none, none, none, none⟩⟩ 0 []).resp =
      Resp.errorMsg "DATABASE_URL environment variable is not set" ∧
    requireAdmin none (some "sec") = some 500 := by
  refine ⟨by decide, by decide, by decide⟩

/-- C4 (amended): missing configuration is surfaced per request, not at
startup: the serverless handler answers every data request with 500 when
DATABASE_URL is unset, the Express middleware answers every admin-gated
request with 500 when ADMIN_SECRET is unset, and the serverless handler
answers mutating requests with 403 when ADMIN_SECRET is unset. -/
theorem c4_config_amended (env : Env) (req : Request) (now : Nat) (t : List Row) :
    (env.databaseUrl = none → req.method ≠ Method.options →
      ¬(req.method = Method.get ∧ req.url = "/api/posts/health") →
      (handler env req now t).status = 500 ∧
      (handler env req now t).resp =
        Resp.errorMsg "DATABASE_URL environment variable is not set" ∧
      (handler env req now t).table = t) ∧
    (∀ key, requireAdmin none key = some 500) ∧
    (∀ u, env.adminSecret = none → env.databaseUrl = some u →
      req.method = Method.post →
      (handler env req now t).status = 403 ∧
      (handler env req now t).table = t) := by
  refine ⟨?_, ?_, ?_⟩
  · intro hdb hopt hhealth
    refine ⟨?_, ?_, ?_⟩ <;> simp [handler, hdb, hopt, hhealth]
  · intro key
    rfl
  · intro u hsec hdb hm
    have hadmin : isAdmin env req = false := by
      rcases hk : req.adminKey with _ | k
      · simp [isAdmin, hk]
      · simp [isAdmin, hk, hsec]
    constructor <;> simp [handler, hm, hdb, hadmin]

/-- Witness for the amended C4 at concrete requests. -/
theorem c4_config_amended_witness :
    ((handler ⟨none, some "sec"⟩
        ⟨Method.delete, "/api/posts/p1", none, some "sec",
          ⟨none, none, none, none, none⟩⟩ 3
        [⟨"p1", "O", "OC", "OE", [], 5, 5⟩]).status = 500) ∧
    requireAdmin none none = some 500 ∧
    ((handler ⟨some "db", none⟩
        ⟨Method.post, "/api/posts", none, some "anything",
          ⟨some "p1", some "T", some "C", none, none⟩⟩ 3 []).status = 403) :=
  ⟨((c4_config_amended ⟨none, some "sec"⟩
      ⟨Method.delete, "/api/posts/p1", none, some "sec",
        ⟨none, none, none, none, none⟩⟩ 3
      [⟨"p1", "O", "OC", "OE", [], 5, 5⟩]).1 rfl (by decide) (by decide)).1,
   (c4_config_amended ⟨none, some "sec"⟩
      ⟨Method.delete, "/api/posts/p1", none, some "sec",
        ⟨none, none, none, none, none⟩⟩ 3
      [⟨"p1", "O", "OC", "OE", [], 5, 5⟩]).2.1 none,
   ((c4_config_amended ⟨some "db", none⟩
      ⟨Method.post, "/api/posts", none, some "anything",
        ⟨some "p1", some "T", some "C", none, none⟩⟩ 3 []).2.2 "db"
      rfl rfl rfl).1⟩

theorem perm_insertByCreatedDesc (r : Row) (l : List Row) :
    (insertByCreatedDesc r l).Perm (r :: l) := by
  induction l with
  | nil => exact List.Perm.refl _
  | cons x xs ih =>
    unfold insertByCreatedDesc
    by_cases h : r.created_at ≤ x.created_at
    · rw [if_pos h]
      exact (ih.cons x).trans (List.Perm.swap r x xs)
    · rw [if_neg h]

theorem perm_sortByCreatedDesc (t : List Row) : (sortByCreatedDesc t).Perm t := by
  induction t with
  | nil => exact List.Perm.refl _
  | cons r rest ih =>
    rw [sortByCreatedDesc]
    exact (perm_insertByCreatedDesc r _).trans (ih.cons r)

theorem mem_insertByCreatedDesc {y r : Row} {l : List Row} :
    y ∈ insertByCreatedDesc r l ↔ y = r ∨ y ∈ l := by
  simpa [List.mem_cons] using (perm_insertByCreatedDesc r l).mem_iff

theorem sorted_insertByCreatedDesc {r : Row} {l : List Row}
    (h : l.Pairwise (fun a b => b.created_at ≤ a.created_at)) :
    (insertByCreatedDesc r l).Pairwise (fun a b => b.created_at ≤ a.created_at) := by
  induction l with
  | nil => simp [insertByCreatedDesc]
  | cons x xs ih =>
    rcases List.pairwise_cons.mp h with ⟨hx, hxs⟩
    unfold insertByCreatedDesc
    by_cases hc : r.created_at ≤ x.created_at
    · rw [if_pos hc]
      refine List.pairwise_cons.mpr ⟨?_, ih hxs⟩
      intro y hy
      rcases mem_insertByCreatedDesc.mp hy with rfl | hy2
      · exact hc
      · exact hx y hy2
    · rw [if_neg hc]
      refine List.pairwise_cons.mpr ⟨?_, h⟩
      intro y hy
      rcases List.mem_cons.mp hy with rfl | hy2
      · exact Nat.le_of_lt (Nat.lt_of_not_le hc)
      · exact Nat.le_trans (hx y hy2) (Nat.le_of_lt (Nat.lt_of_not_le hc))

theorem sorted_sortByCreatedDesc (t : List Row) :
    (sortByCreatedDesc t).Pairwise (fun a b => b.created_at ≤ a.created_at) := by
  induction t with
  | nil => simp [sortByCreatedDesc]
  | cons r rest ih =>
    rw [sortByCreatedDesc]
    exact sorted_insertByCreatedDesc ih

theorem insertByCreatedDesc_map_erase (r : Row) (l : List Row) :
    insertByCreatedDesc (eraseContent r) (l.map eraseContent) =
      (insertByCreatedDesc r l).map eraseContent := by
  induction l with
  | nil => rfl
  | cons x xs ih =>
    simp only [List.map_cons]
    unfold insertByCreatedDesc
    by_cases hc : r.created_at ≤ x.created_at
    · rw [if_pos (show (eraseContent r).created_at ≤ (eraseContent x).created_at from hc),
        if_pos hc]
      rw [List.map_cons, ih]
    · rw [if_neg (show ¬(eraseContent r).created_at ≤ (eraseContent x).created_at from hc),
        if_neg hc]
      rfl

theorem sortByCreatedDesc_map_erase (t : List Row) :
    sortByCreatedDesc (t.map eraseContent) = (sortByCreatedDesc t).map eraseContent := by
  induction t with
  | nil => rfl
  | cons r rest ih =>
    simp only [List.map_cons]
    rw [sortByCreatedDesc, sortByCreatedDesc, ih, insertByCreatedDesc_map_erase]

theorem map_toSummary_erase (l : List Row) :
    (l.map eraseContent).map toSummary = l.map toSummary := by
  induction l with
  | nil => rfl
  | cons r rest ih =>
    simp only [List.map_cons, ih]
    rfl

/-- C5: the list endpoint answers 200 with the table unchanged, its body
being every row sorted by created_at descending and projected to the
content-free summary record, and the body is unchanged when every content
column is replaced, so the content field never appears in a list response;
the get endpoint answers an existing unique id with 200 and the full row,
content included. -/
theorem c5_list_and_get (env : Env) (req : Request) (now : Nat) (t : List Row)
    (u : String)
    (hdb : env.databaseUrl = some u)
    (hm : req.method = Method.get)
    (hurl : req.url ≠ "/api/posts/health")
    (hpid : extractId req = none) :
    ((handler env req now t).status = 200 ∧
     (handler env req now t).table = t ∧
     (handler env req now t).resp =
        Resp.summaries ((sortByCreatedDesc t).map toSummary) ∧
     (sortByCreatedDesc t).Perm t ∧
     (sortByCreatedDesc t).Pairwise (fun a b => b.created_at ≤ a.created_at) ∧
     (handler env req now (t.map eraseContent)).resp = (handler env req now t).resp) ∧
    (∀ (req2 : Request) (r0 : Row),
      req2.method = Method.get → req2.url ≠ "/api/posts/health" →
      extractId req2 = some r0.id → r0 ∈ t →
      t.Pairwise (fun a b => a.id ≠ b.id) →
      (handler env req2 now t).status = 200 ∧
      (handler env req2 now t).resp = Resp.fullRow r0) := by
  constructor
  · have h1 : ∀ tt : List Row, (handler env req now tt).status = 200 ∧
        (handler env req now tt).table = tt ∧
        (handler env req now tt).resp =
          Resp.summaries ((sortByCreatedDesc tt).map toSummary) := by
      intro tt
      refine ⟨?_, ?_, ?_⟩ <;> simp [handler, hm, hdb, hurl, hpid]
    obtain ⟨hs1, ht1, hr1⟩ := h1 t
    obtain ⟨_, _, hr2⟩ := h1 (t.map eraseContent)
    refine ⟨hs1, ht1, hr1, perm_sortByCreatedDesc t, sorted_sortByCreatedDesc t, ?_⟩
    rw [hr1, hr2, sortByCreatedDesc_map_erase, map_toSummary_erase]
  · intro req2 r0 hm2 hurl2 hpid2 hmem huniq
    have hsel : selectById t r0.id = [r0] := selectById_eq_of_unique hmem rfl huniq
    constructor <;> simp [handler, hm2, hdb, hurl2, hpid2, hsel]

/-- Witness for C5 over a concrete two-row table: the list response is the
summaries sorted newest first, and the get response carries the full row. -/
theorem c5_list_and_get_witness :
    ((handler ⟨some "db", some "sec"⟩
        ⟨Method.get, "/api/posts", none, none, ⟨none, none, none, none, none⟩⟩ 0
        [⟨"p1", "O", "OC", "OE", ["t"], 5, 5⟩, ⟨"p2", "B", "BC", "BE", [], 7, 7⟩]).status
      = 200 ∧
     (handler ⟨some "db", some "sec"⟩
        ⟨Method.get, "/api/posts", none, none, ⟨none, none, none, none, none⟩⟩ 0
        [⟨"p1", "O", "OC", "OE", ["t"], 5, 5⟩, ⟨"p2", "B", "BC", "BE", [], 7, 7⟩]).resp
      = Resp.summaries ((sortByCreatedDesc
          [⟨"p1", "O", "OC", "OE", ["t"], 5, 5⟩, ⟨"p2", "B", "BC", "BE", [], 7, 7⟩]).map
            toSummary)) ∧
    (handler ⟨some "db", some "sec"⟩
        ⟨Method.get, "/api/posts/p1", none, none, ⟨none, none, none, none, none⟩⟩ 0
        [⟨"p1", "O", "OC", "OE", ["t"], 5, 5⟩, ⟨"p2", "B", "BC", "BE", [], 7, 7⟩]).resp
      = Resp.fullRow ⟨"p1", "O", "OC", "OE", ["t"], 5, 5⟩ :=
  ⟨⟨((c5_list_and_get ⟨some "db", some "sec"⟩
      ⟨Method.get, "/api/posts", none, none, ⟨none, none, none, none, none⟩⟩ 0
      [⟨"p1", "O", "OC", "OE", ["t"], 5, 5⟩, ⟨"p2", "B", "BC", "BE", [], 7, 7⟩] "db"
      rfl rfl (by decide) (by decide)).1).1,
    ((c5_list_and_get ⟨some "db", some "sec"⟩
      ⟨Method.get, "/api/posts", none, none, ⟨none, none, none, none, none⟩⟩ 0
      [⟨"p1", "O", "OC", "OE", ["t"], 5, 5⟩, ⟨"p2", "B", "BC", "BE", [], 7, 7⟩] "db"
      rfl rfl (by decide) (by decide)).1).2.2.1⟩,
   ((c5_list_and_get ⟨some "db", some "sec"⟩
      ⟨Method.get, "/api/posts", none, none, ⟨none, none, none, none, none⟩⟩ 0
      [⟨"p1", "O", "OC", "OE", ["t"], 5, 5⟩, ⟨"p2", "B", "BC", "BE", [], 7, 7⟩] "db"
      rfl rfl (by decide) (by decide)).2
     ⟨Method.get, "/api/posts/p1", none, none, ⟨none, none, none, none, none⟩⟩
     ⟨"p1", "O", "OC", "OE", ["t"], 5, 5⟩
     rfl (by decide) (by decide) (by simp) (by simp)).2⟩

end Blog
